import Mathlib

/-!
# A verification development for the GTFS query library

This file embeds, shallowly, the parts of the `jfmow/gtfs` Go library that the
specification's testable properties talk about, and proves (or refutes) those
properties over the embedding:

* the service-resolution CTE shared by `GetActiveTrips` (services.go) and
  `loadTripStopTimes` (journey.go);
* the `GetActiveTrips` join with its pickup/drop-off filters;
* the platform heuristic `determinePlatform` (services.go);
* the walking-duration formula `walkDurationSeconds` and the RAPTOR-style
  planner `PlanJourneysRaptor` / `buildJourneyLegs` (journey.go);
* the parameter binding of `GetServiceByTripAndStop` (services.go);
* the realtime trip-update selection, merge and cache logic
  (realtime/tripupdates.go).

Conventions of the embedding:

* SQL tables become lists of records; queries become list operations whose
  net row-set semantics matches the SQL.
* Machine integers (Go `int`, seconds since the service day start, unix
  timestamps) become `Int` or `Nat`; no Go computation here can overflow
  64-bit, so plain integers are faithful.
* Geographic distance: the source computes a haversine over IEEE `float64`
  (with `math.Sin`/`math.Cos`); transcendental float arithmetic has no exact
  shallow embedding, so distances are rationals supplied by an abstract
  distance assignment, and float expressions over them are modelled in `ℚ`.
* Wall-clock instants (`time.Time`) become integer seconds; `t.After(u)` is
  `u < t`; the planner's `time.Time` leg fields are kept as seconds offsets
  from the service day start (`dayStart.Add(d·time.Second)` is monotone in
  `d`, so every ordering claim transfers).
* Go map reads of a missing key yield the zero value; maps over stop ids are
  embedded as total functions `String → _` with explicit defaults, maps kept
  for iteration as association lists (Go map iteration order is unspecified,
  so theorems quantify over the order where it could matter).
-/

/-! ## Service resolver: the `active_services` CTE

Embedded from the common CTE of `GetActiveTrips` (src/services.go,
src/unnamed/part_002) and `loadTripStopTimes` (src/journey.go):

```sql
WITH active_services AS (
  SELECT service_id FROM calendar
  WHERE start_date <= ? AND end_date >= ? AND <weekday> = 1
  UNION ALL
  SELECT service_id FROM calendar_dates WHERE date = ? AND exception_type = 1
),
removed_services AS (
  SELECT service_id FROM calendar_dates WHERE date = ? AND exception_type = 2
),
adjusted_services AS (
  SELECT DISTINCT service_id FROM active_services
  WHERE service_id NOT IN (SELECT service_id FROM removed_services)
)
```

Dates are `YYYYMMDD` naturals; the weekday column picked by
`strings.ToLower(now.Weekday().String())` is embedded as a `Fin 7` index into
the row's seven weekday flags.
-/

structure CalendarRow where
  serviceId : String
  weekday : Fin 7 → Bool
  startDate : Nat
  endDate : Nat

structure CalendarDateRow where
  serviceId : String
  date : Nat
  exceptionType : Int
deriving DecidableEq

/-- The `active_services` CTE: calendar rows covering the date with the
weekday flag set, `UNION ALL` the `exception_type = 1` calendar_dates rows. -/
def activeServicesCTE (cal : List CalendarRow) (cd : List CalendarDateRow)
    (d : Nat) (wd : Fin 7) : List String :=
  (cal.filter fun r => decide (r.startDate ≤ d) && decide (d ≤ r.endDate) && r.weekday wd).map
      (fun r => r.serviceId)
    ++ (cd.filter fun r => decide (r.date = d) && decide (r.exceptionType = 1)).map
      (fun r => r.serviceId)

/-- The `removed_services` CTE: `exception_type = 2` rows for the date. -/
def removedServicesCTE (cd : List CalendarDateRow) (d : Nat) : List String :=
  (cd.filter fun r => decide (r.date = d) && decide (r.exceptionType = 2)).map
    (fun r => r.serviceId)

/-- The `adjusted_services` CTE: `SELECT DISTINCT` of active services not in
the removed set. -/
def adjustedServices (cal : List CalendarRow) (cd : List CalendarDateRow)
    (d : Nat) (wd : Fin 7) : List String :=
  (activeServicesCTE cal cd d wd).dedup.filter
    (fun s => !(removedServicesCTE cd d).contains s)

/-! ## Platform heuristic (`determinePlatform`, src/services.go lines 405-416)

The source tests, in order:
1. `regexp` match of `Train Station (\d)$` — equivalently the name ends with
   `"Train Station "` followed by a single ASCII digit, which is captured;
2. `strings.HasSuffix(name, "Train Station")` and no trailing digit (`\d$`);
3. `[A-Z]$` — the last character is an ASCII capital, which is returned;
4. otherwise the literal `"no platform"`.
The embedding works on the character list of the name; all patterns involved
are ASCII, for which Go's byte-wise suffix tests coincide with these
character-wise ones. -/

def determinePlatform (stopName : String) : String :=
  let cs := stopName.data
  match cs.getLast? with
  | none => "no platform"
  | some c =>
    if c.isDigit && ("Train Station ".data ++ [c]).isSuffixOf cs then
      String.mk [c]
    else if ("Train Station".data).isSuffixOf cs && !c.isDigit then
      "1"
    else if 'A' ≤ c && c ≤ 'Z' then
      String.mk [c]
    else
      "no platform"

/-- Stop-type category from the stop name (`typeOfStop`): the embedding keeps
only its decision structure (substring membership), which no claim exercises
beyond determinism. -/
def typeOfStop (stopName : String) : String :=
  if "Ferry Terminal".data <:+: stopName.data then "ferry"
  else if "Train Station".data <:+: stopName.data then "train"
  else "bus"

/-! ## `GetActiveTrips` (src/unnamed/part_002 lines 33-141)

The later revision of `GetActiveTrips` takes an explicit date and filters
`(st.pickup_type IS NULL OR st.pickup_type = 0) AND (st.drop_off_type IS NULL
OR st.drop_off_type = 0)` in the joined query.  The embedding produces the
joined row set: `trips ⋈ adjusted_services ⋈ stop_times ⋈ stops ⋈ routes`
with the filters, ordered by departure time and limited. -/

structure TripRow where
  tripId : String
  serviceId : String
  routeId : String
  directionId : Int
  shapeId : String
  tripHeadsign : String
deriving DecidableEq

structure StopTimeRow where
  tripId : String
  arrivalTime : String
  departureTime : String
  stopId : String
  stopSequence : Int
  stopHeadsign : String
  pickupType : Option Int
  dropOffType : Option Int
deriving DecidableEq

structure StopRow where
  stopId : String
  stopName : String
  stopCode : String
  locationType : Int
  parentStation : String
  platformCode : String
deriving DecidableEq

structure RouteRow where
  routeId : String
  routeColor : String
  routeShortName : String
deriving DecidableEq

structure JoinedServiceRow where
  trip : TripRow
  st : StopTimeRow
  stop : StopRow
  route : RouteRow
deriving DecidableEq

/-- Byte-wise string order (SQLite's BINARY collation, Go's `<` on strings),
as code-point order on the character list — identical orders for UTF-8.
`String`'s library order is not kernel-reducible, so the embedding carries its
own. -/
def charListLe : List Char → List Char → Bool
  | [], _ => true
  | _ :: _, [] => false
  | a :: as, b :: bs => if a < b then true else if b < a then false else charListLe as bs

def sqlStringLe (a b : String) : Bool := charListLe a.data b.data

def sqlStringLt (a b : String) : Bool := !charListLe b.data a.data

/-- `st.pickup_type IS NULL OR st.pickup_type = 0` (and likewise for
`drop_off_type`). -/
def regularStopTypeSQL (v : Option Int) : Bool :=
  v.isNone || v == some 0

/-- The WHERE clause of the later `GetActiveTrips` applied to one joined row:
the pickup/drop-off filters, the optional departure lower bound
(`st.departure_time > ?`, a string comparison), and the optional stop filter
(`st.stop_id = ?`). -/
def getActiveTripsWhere (stopID departureTimeFilter : String)
    (st : StopTimeRow) : Bool :=
  regularStopTypeSQL st.pickupType && regularStopTypeSQL st.dropOffType
    && (departureTimeFilter == "" || sqlStringLt departureTimeFilter st.departureTime)
    && (stopID == "" || st.stopId == stopID)

/-- The joined, filtered row set of `GetActiveTrips`: for every trip row whose
service is in `adjusted_services`, every stop_times row of that trip joined to
its stop and route rows, subject to `getActiveTripsWhere`. -/
def getActiveTripsJoin (trips : List TripRow) (stopTimes : List StopTimeRow)
    (stops : List StopRow) (routes : List RouteRow)
    (cal : List CalendarRow) (cd : List CalendarDateRow)
    (stopID departureTimeFilter : String) (d : Nat) (wd : Fin 7) :
    List JoinedServiceRow :=
  let adjusted := adjustedServices cal cd d wd
  (trips.filter fun t => adjusted.contains t.serviceId).flatMap fun t =>
    (stopTimes.filter fun st =>
        st.tripId == t.tripId && getActiveTripsWhere stopID departureTimeFilter st).flatMap
      fun st =>
        (stops.filter fun s => s.stopId == st.stopId).flatMap fun s =>
          (routes.filter fun r => r.routeId == t.routeId).map fun r =>
            { trip := t, st := st, stop := s, route := r }

/-- `ORDER BY st.departure_time ASC` then `LIMIT`: the rows of
`getActiveTripsJoin` sorted by departure-time string and truncated when a
positive limit is given (`insertionSort` is one order consistent with the
SQL, which does not fix the order of ties). -/
def getActiveTrips (trips : List TripRow) (stopTimes : List StopTimeRow)
    (stops : List StopRow) (routes : List RouteRow)
    (cal : List CalendarRow) (cd : List CalendarDateRow)
    (stopID departureTimeFilter : String) (d : Nat) (wd : Fin 7)
    (limit : Int) : List JoinedServiceRow :=
  let sorted :=
    (getActiveTripsJoin trips stopTimes stops routes cal cd stopID
        departureTimeFilter d wd).insertionSort
      (fun a b => sqlStringLe a.st.departureTime b.st.departureTime = true)
  if 0 < limit then sorted.take limit.toNat else sorted

/-! ## Journey planner (src/journey.go)

`PlanJourneysRaptor` and its helpers.  The embedding keeps seconds as `Int`,
distances as `ℚ` supplied through abstract per-point distance assignments
(standing for `calculateDistance`, the float haversine), and the stop-keyed Go
maps as total functions with the Go zero-value default.  The day's trip table
(`loadTripStopTimes`) is passed in as an association list so that theorems can
quantify over Go's unspecified map iteration order.  Fields no claim touches
(the `Route` pointer on a leg, `RouteGeoJSON`, the plan `ID`) are omitted. -/

/-- Go `math.Round`: round half away from zero (exact on `ℚ`). -/
def goRound (x : ℚ) : Int :=
  if 0 ≤ x then ⌊x + 1 / 2⌋ else -⌊-x + 1 / 2⌋

/-- `math.Round` of the fraction `p / q` (`q` positive), computed on integers:
`⌊p / q + 1 / 2⌋ = (2p + q) / 2q` for non-negative `p`, mirrored for negative
`p`.  (`ℚ`'s field operations are not kernel-reducible, so the embedding
evaluates the rational through its numerator and denominator;
`roundIntFrac_eq_goRound` is the agreement proof.) -/
def roundIntFrac (p : Int) (q : Nat) : Int :=
  if 0 ≤ p then (2 * p + q) / (2 * q : Nat) else -((2 * -p + q) / (2 * q : Nat))

/-- `walkDurationSeconds` (journey.go lines 383-388): default the speed to 4.8
when non-positive, then `int(math.Round(distanceKm / speedKmph * 3600))`; the
rational `distanceKm / speedKmph * 3600` is the fraction
`(distanceKm.num · 3600 · speedKmph.den) / (distanceKm.den · speedKmph.num)`
and `walkDurationSeconds_eq_goRound` proves this definition equal to
`goRound` of it. -/
def walkDurationSeconds (distanceKm speedKmph : ℚ) : Int :=
  let s := if speedKmph ≤ 0 then mkRat 24 5 else speedKmph
  roundIntFrac (distanceKm.num * 3600 * s.den) (distanceKm.den * s.num.toNat)

/-- `math.MaxInt32`, the planner's infinity sentinel. -/
def maxInt32 : Int := 2147483647

structure TripStopTime where
  stopID : String
  stopSequence : Int
  arrivalSec : Int
  departureSec : Int
  routeID : String
  tripID : String
deriving DecidableEq

structure StopPredecessor where
  fromStopID : String
  tripID : String
  routeID : String
  departSec : Int
  arriveSec : Int
  mode : String
deriving DecidableEq

structure StopWithDistance where
  stopId : String
  distance : ℚ
deriving DecidableEq

/-- `filterNearbyStops`: keep stops within `maxDistanceKm`, sort ascending by
distance (`sort.Slice` fixes no order on ties; `insertionSort` realises one valid
outcome), truncate to `maxStops`. -/
def filterNearbyStops (stops : List String) (dist : String → ℚ)
    (maxDistanceKm : ℚ) (maxStops : Nat) : List StopWithDistance :=
  let sds := (stops.filter fun s => decide (dist s ≤ maxDistanceKm)).map
    fun s => StopWithDistance.mk s (dist s)
  let sorted := sds.insertionSort fun a b => a.distance ≤ b.distance
  if maxStops < sorted.length then sorted.take maxStops else sorted

/-- State carried through one round's trip scans: the two stop-keyed maps plus
this round's `nextUpdated` set (a map in Go; its `len(...) == 0` exit test is
tracked by the `anyNextUpdated` flag, which is true exactly when at least one
key was inserted). -/
structure ScanState where
  arrival : String → Int
  pred : String → Option StopPredecessor
  nextUpdated : String → Bool
  anyNextUpdated : Bool

/-- One relaxation (journey.go lines 202-213): lower `arrival`, record the
transit predecessor from the boarding stop, mark improved-for-next-round. -/
def relaxStop (st : TripStopTime) (board : String × Int) (s : ScanState) : ScanState :=
  { arrival := Function.update s.arrival st.stopID st.arrivalSec,
    pred := Function.update s.pred st.stopID
      (some ⟨board.1, st.tripID, st.routeID, board.2, st.arrivalSec, "transit"⟩),
    nextUpdated := Function.update s.nextUpdated st.stopID true,
    anyNextUpdated := true }

/-- The per-trip stop-time scan (journey.go lines 188-215): before boarding,
board at the first stop improved in the previous round whose arrival is at
most the trip's departure there; after boarding, relax every later stop the
trip reaches earlier than its current arrival. -/
def scanTripGo (updated : String → Bool) :
    List TripStopTime → Option (String × Int) → ScanState → ScanState
  | [], _, s => s
  | st :: rest, none, s =>
    if updated st.stopID && decide (s.arrival st.stopID ≤ st.departureSec) then
      scanTripGo updated rest (some (st.stopID, st.departureSec)) s
    else
      scanTripGo updated rest none s
  | st :: rest, some board, s =>
    if st.arrivalSec < s.arrival st.stopID then
      scanTripGo updated rest (some board) (relaxStop st board s)
    else
      scanTripGo updated rest (some board) s

def scanTrip (updated : String → Bool) (ts : List TripStopTime) (s : ScanState) : ScanState :=
  scanTripGo updated ts none s

/-- One round: scan every trip of the day's table in iteration order. -/
def runRound (updated : String → Bool) (trips : List (List TripStopTime))
    (s : ScanState) : ScanState :=
  trips.foldl (fun s t => scanTrip updated t s) s

structure RaptorState where
  arrival : String → Int
  pred : String → Option StopPredecessor
  updated : String → Bool

/-- The round loop (journey.go lines 186-221), fuelled with `K + 1` rounds:
each round starts from an empty `nextUpdated`, breaks early when a full pass
makes no improvement, and otherwise promotes `nextUpdated` to `updated`. -/
def raptorRounds (trips : List (List TripStopTime)) : Nat → RaptorState → RaptorState
  | 0, s => s
  | n + 1, s =>
    let r := runRound s.updated trips ⟨s.arrival, s.pred, fun _ => false, false⟩
    if r.anyNextUpdated then
      raptorRounds trips n ⟨r.arrival, r.pred, r.nextUpdated⟩
    else
      ⟨r.arrival, r.pred, s.updated⟩

/-- Go map reads default to the zero value: `arrival` is `maxInt32` for the
stops the planner enumerated into `stopMap` and 0 for unknown keys. -/
def baseArrival (stopIds : List String) : String → Int :=
  fun sid => if stopIds.contains sid then maxInt32 else 0

/-- Walk-access initialisation (journey.go lines 169-184). -/
def initWalkStep (departSec : Int) (speed : ℚ) (s : RaptorState)
    (c : StopWithDistance) : RaptorState :=
  let w := walkDurationSeconds c.distance speed
  let a := departSec + w
  if a < s.arrival c.stopId then
    { arrival := Function.update s.arrival c.stopId a,
      pred := Function.update s.pred c.stopId
        (some ⟨"", "", "", departSec, a, "walk-origin"⟩),
      updated := Function.update s.updated c.stopId true }
  else s

def initWalk (cands : List StopWithDistance) (departSec : Int) (speed : ℚ)
    (s : RaptorState) : RaptorState :=
  cands.foldl (initWalkStep departSec speed) s

structure JourneyCandidate where
  stop : StopWithDistance
  arrivalSec : Int
deriving DecidableEq

/-- `selectBestDestinations` (journey.go lines 415-438): reachable nearby-end
stops, total arrival = stop arrival + egress walk, filtered to not precede the
departure, sorted ascending, truncated to `maxResults`. -/
def selectBestDestinations (cands : List StopWithDistance) (arrival : String → Int)
    (departSec : Int) (walkSpeedKmph : ℚ) (maxResults : Int) : List JourneyCandidate :=
  let results := cands.filterMap fun c =>
    let a := arrival c.stopId
    if a = maxInt32 then none
    else
      let t := a + walkDurationSeconds c.distance walkSpeedKmph
      if departSec ≤ t then some (JourneyCandidate.mk c t) else none
  let sorted := results.insertionSort fun a b => a.arrivalSec ≤ b.arrivalSec
  if 0 < maxResults ∧ (maxResults : Int) < sorted.length then
    sorted.take maxResults.toNat
  else sorted

/-- A journey leg; times are seconds since the service day start (the source
stores `dayStart.Add(seconds)`, an order-isomorphic translation), stops are
stop ids, and the unexercised `Route` pointer is omitted. -/
structure JourneyLeg where
  mode : String
  fromStop : Option String
  toStop : Option String
  tripID : String
  routeID : String
  departureSec : Int
  arrivalSec : Int
  distanceKm : ℚ
deriving DecidableEq

structure BuildAcc where
  legs : List JourneyLeg
  transfers : Int
  transferStops : List String
  lastTripID : String
  lastStop : Option String
  current : String
deriving DecidableEq

/-- The predecessor-chain walk of `buildJourneyLegs` (journey.go lines
466-517).  The Go loop is unbounded; the fuel passed by the planner exceeds
the number of stop ids that can carry a predecessor entry, so it never
truncates a chain the Go loop would finish. -/
def buildLegsLoop (pred : String → Option StopPredecessor) (departSec : Int)
    (distFromStart : String → ℚ) : Nat → BuildAcc → BuildAcc
  | 0, acc => acc
  | n + 1, acc =>
    if acc.current = "" then acc
    else
      match pred acc.current with
      | none => acc
      | some p =>
        if p.mode = "walk-origin" then
          { acc with
            legs := acc.legs ++
              [⟨"walk", none, some acc.current, "", "", departSec, p.arriveSec,
                distFromStart acc.current⟩],
            lastStop := some acc.current }
        else
          let leg : JourneyLeg :=
            ⟨"transit", some p.fromStopID, some acc.current, p.tripID, p.routeID,
              p.departSec, p.arriveSec, 0⟩
          let acc' :=
            if acc.lastTripID ≠ "" ∧ acc.lastTripID ≠ p.tripID then
              { acc with
                transfers := acc.transfers + 1,
                transferStops := acc.transferStops ++
                  (match acc.lastStop with | some s => [s] | none => []) }
            else acc
          buildLegsLoop pred departSec distFromStart n
            { acc' with
              legs := acc'.legs ++ [leg],
              lastTripID := p.tripID,
              lastStop := some p.fromStopID,
              current := p.fromStopID }

/-- `buildJourneyLegs` (journey.go lines 440-522): trailing walk leg, then the
predecessor chain, then reverse into chronological order.  Returns
(legs, transfers, transfer stops). -/
def buildJourneyLegs (endStop : StopWithDistance) (endArrivalSec : Int)
    (pred : String → Option StopPredecessor) (departSec : Int)
    (walkSpeedKmph : ℚ) (distFromStart : String → ℚ) (fuel : Nat) :
    List JourneyLeg × Int × List String :=
  if endStop.stopId = "" then ([], 0, [])
  else
    let w := walkDurationSeconds endStop.distance walkSpeedKmph
    let walkToDestination : JourneyLeg :=
      ⟨"walk", some endStop.stopId, none, "", "", endArrivalSec - w,
        endArrivalSec, endStop.distance⟩
    let acc := buildLegsLoop pred departSec distFromStart fuel
      { legs := [walkToDestination], transfers := 0, transferStops := [],
        lastTripID := "", lastStop := some endStop.stopId,
        current := endStop.stopId }
    (acc.legs.reverse, acc.transfers, acc.transferStops)

structure JourneyPlan where
  departureSec : Int
  arrivalSec : Int
  transfers : Int
  transferStops : List String
  legs : List JourneyLeg
deriving DecidableEq

structure JourneyRequest where
  maxWalkKm : ℚ
  walkSpeedKmph : ℚ
  maxTransfers : Int
  maxNearbyStops : Int
  minResults : Int
  maxResults : Int
  departAt : Option Int

/-- The request defaulting of `PlanJourneysRaptor` (journey.go lines
103-123); `departAt = none` models `DepartAt.IsZero()`. -/
def applyJourneyDefaults (req : JourneyRequest) : JourneyRequest :=
  let req := if req.maxWalkKm ≤ 0 then { req with maxWalkKm := 1 } else req
  let req := if req.walkSpeedKmph ≤ 0 then { req with walkSpeedKmph := mkRat 24 5 } else req
  let req := if req.maxTransfers ≤ 0 then { req with maxTransfers := 2 } else req
  let req := if req.maxNearbyStops ≤ 0 then { req with maxNearbyStops := 50 } else req
  let req := if req.minResults < 0 then { req with minResults := 0 } else req
  let req := if req.maxResults ≤ 0 then { req with maxResults := 1 } else req
  if 0 < req.minResults ∧ req.maxResults < req.minResults then
    { req with maxResults := req.minResults }
  else req

/-- `PlanJourneysRaptor` (journey.go lines 102-257).  `stops` is what
`GetStops` returned (stop ids), `trips` the `loadTripStopTimes` table in map
iteration order, `distStart`/`distEnd` the haversine distances from the
requested start/end points.  The `trips.isEmpty` error is
`loadTripStopTimes`' "no trip times found for active services" (journey.go
line 357), surfaced at its call site. -/
def planJourneysRaptor (req : JourneyRequest) (stops : List String)
    (trips : List (String × List TripStopTime))
    (distStart distEnd : String → ℚ) : Except String (List JourneyPlan) :=
  let req := applyJourneyDefaults req
  match req.departAt with
  | none => .error "depart time required"
  | some departSec =>
    let nearbyStart := filterNearbyStops stops distStart req.maxWalkKm req.maxNearbyStops.toNat
    let nearbyEnd := filterNearbyStops stops distEnd req.maxWalkKm req.maxNearbyStops.toNat
    if nearbyStart.isEmpty || nearbyEnd.isEmpty then
      .error "no nearby stops found for start or end"
    else if trips.isEmpty then
      .error "no trip times found for active services"
    else
      let s0 : RaptorState := ⟨baseArrival stops, fun _ => none, fun _ => false⟩
      let s1 := initWalk nearbyStart departSec req.walkSpeedKmph s0
      let sF := raptorRounds (trips.map fun t => t.2) (req.maxTransfers + 1).toNat s1
      let best := selectBestDestinations nearbyEnd sF.arrival departSec
        req.walkSpeedKmph req.maxResults
      if best.isEmpty then .error "no journey found between the given coordinates"
      else
        let fuel := stops.length + (trips.map fun t => t.2.length).sum + 1
        let plans := best.filterMap fun c =>
          let built := buildJourneyLegs c.stop c.arrivalSec sF.pred departSec
            req.walkSpeedKmph distStart fuel
          if built.1.isEmpty then none
          else some ⟨departSec, c.arrivalSec, built.2.1, built.2.2, built.1⟩
        if plans.isEmpty then .error "no journey legs available"
        else .ok plans

/-! ## `GetServiceByTripAndStop` (src/services.go lines 246-305,
src/unnamed/part_002 lines 257-305)

Both revisions build a base query with exactly two placeholders
(`t.trip_id = ?`, `st.stop_id = ?`), append ` AND st.departure_time > ?` only
when the filter is non-empty, and then always execute
`db.QueryRow(query, tripID, stopId, departureTimeFilter)` — three bound
arguments.  Go's `database/sql` rejects a query whose placeholder count
differs from the argument count: the `Scan` on the returned row yields an
error instead of data.  The embedding keeps the query as its placeholder
count, the binding as the argument list, and that driver rule as
`queryRowScan`. -/

/-- Placeholder count of `GetServiceByTripAndStop`'s assembled SQL text. -/
def getServiceQueryPlaceholders (departureTimeFilter : String) : Nat :=
  2 + (if departureTimeFilter ≠ "" then 1 else 0)

/-- The arguments the source passes to `db.QueryRow`, unconditionally three. -/
def getServiceQueryArgs (tripID stopId departureTimeFilter : String) : List String :=
  [tripID, stopId, departureTimeFilter]

/-- Go `database/sql` row execution: an argument/placeholder count mismatch is
an error; otherwise the matching row (or a no-rows error) is returned. -/
def queryRowScan (placeholders : Nat) (args : List String)
    (row : Option JoinedServiceRow) : Except String JoinedServiceRow :=
  if args.length ≠ placeholders then
    .error "sql: expected placeholder count differs from argument count"
  else
    match row with
    | some r => .ok r
    | none => .error "sql: no rows in result set"

/-- `GetServiceByTripAndStop`, at the granularity of its parameter binding:
`row` is the row the two-placeholder query would match when correctly bound. -/
def getServiceByTripAndStop (tripID stopId departureTimeFilter : String)
    (row : Option JoinedServiceRow) : Except String JoinedServiceRow :=
  if tripID = "" then .error "missing trip id"
  else
    queryRowScan (getServiceQueryPlaceholders departureTimeFilter)
      (getServiceQueryArgs tripID stopId departureTimeFilter) row

/-! ## Realtime trip updates (src/realtime/tripupdates.go)

`GetTripUpdates` with its in-feed selection rule, the cross-fetch merge, and
the time-bounded cache.  A `FeedTripUpdate` carries the fields the logic
reads: trip id, the `start_date start_time` instant (already through
`time.Parse`, `none` for a malformed pair — parsing of the fixed
`"20060102 15:04:05"` layout is not re-modelled), the `timestamp`, a `delay`
presence flag, vehicle/trip-property tags, and the stop-time updates.
`time.Time` instants are integer seconds; `!t.After(now)` is `t ≤ now`. -/

structure StopTimeUpdate where
  stopSequence : Nat
  stopId : String
  payload : String
deriving DecidableEq

structure FeedTripUpdate where
  tripId : String
  start : Option Int
  timestamp : Nat
  vehicle : String
  delay : Option Int
  tripProperties : String
  stopTimeUpdates : List StopTimeUpdate
deriving DecidableEq

/-- `stopKey` (tripupdates.go lines 201-212): prefer a non-zero
`stop_sequence`, fall back to `stop_id`, else no key. -/
def stopKey (s : StopTimeUpdate) : String :=
  if s.stopSequence ≠ 0 then "seq:" ++ toString s.stopSequence
  else if s.stopId ≠ "" then "id:" ++ s.stopId
  else ""

/-- Association-list map update with Go map semantics: replace in place when
the key exists, append otherwise. -/
def alSet {α : Type} (m : List (String × α)) (k : String) (v : α) :
    List (String × α) :=
  if (m.lookup k).isSome then
    m.map fun p => if p.1 = k then (k, v) else p
  else m ++ [(k, v)]

/-- One iteration of the in-feed selection loop (tripupdates.go lines 37-84)
over the `updates` map being built: skip malformed starts; first update for a
trip id always stored; then started beats unstarted, larger timestamp wins
among started, first seen wins among unstarted. -/
def selectTripUpdateStep (now : Int) (m : List (String × FeedTripUpdate))
    (u : FeedTripUpdate) : List (String × FeedTripUpdate) :=
  match u.start with
  | none => m
  | some st =>
    let hasStarted := st ≤ now
    match m.lookup u.tripId with
    | none => alSet m u.tripId u
    | some ex =>
      match ex.start with
      | none => m
      | some exSt =>
        let exStarted := exSt ≤ now
        if !exStarted && hasStarted then alSet m u.tripId u
        else if hasStarted && exStarted then
          if ex.timestamp < u.timestamp then alSet m u.tripId u else m
        else m

/-- The full in-feed selection pass over the fetched entities. -/
def selectTripUpdates (now : Int) (entities : List FeedTripUpdate) :
    List (String × FeedTripUpdate) :=
  entities.foldl (selectTripUpdateStep now) []

/-- `mergeTripUpdates` (tripupdates.go lines 122-196): top-level fields from
the side with the newer timestamp (ties prefer the fetched side), timestamp
the max of both, stop-time updates keyed by `stopKey` with existing entries
first and fetched entries overwriting on collision, sorted stably by
`stop_sequence` (`sort.SliceStable`; the pre-sort order of the Go map
enumeration is realised here by the association list). -/
def mergeTripUpdates (existing fetched : FeedTripUpdate) : FeedTripUpdate :=
  let preferFetched := existing.timestamp ≤ fetched.timestamp
  let base := if preferFetched then fetched else existing
  let stopMap :=
    (existing.stopTimeUpdates.filter fun s => stopKey s ≠ "").foldl
      (fun m s => alSet m (stopKey s) s) []
  let stopMap :=
    (fetched.stopTimeUpdates.filter fun s => stopKey s ≠ "").foldl
      (fun m s => alSet m (stopKey s) s) stopMap
  let mergedList := (stopMap.map fun p => p.2).insertionSort
    (fun a b => a.stopSequence ≤ b.stopSequence)
  { tripId := base.tripId
    start := base.start
    timestamp := max existing.timestamp fetched.timestamp
    vehicle := base.vehicle
    delay := base.delay
    tripProperties := base.tripProperties
    stopTimeUpdates := mergedList }

/-- The cross-fetch merge (tripupdates.go lines 95-109): after writing every
fetched trip into the cache (merging where a cached entry exists) and pruning
cached trips absent from the fetch, the cache holds exactly the fetched trip
ids, merged with their previous entries. -/
def mergeWithCache (cached updates : List (String × FeedTripUpdate)) :
    List (String × FeedTripUpdate) :=
  updates.map fun p =>
    match cached.lookup p.1 with
    | some ex => (p.1, mergeTripUpdates ex p.2)
    | none => p

structure TripUpdatesCache where
  data : List (String × FeedTripUpdate)
  lastUpdated : Int
deriving DecidableEq

/-- `GetTripUpdates` (tripupdates.go lines 21-114) as a state transition.
`fetchResult` stands for `fetchProto` (network, protobuf decode, and its
empty-entity-list error); all three `time.Now()` reads collapse to `now`.
Returns the call result, the cache state after the call, and whether a
network fetch was issued. -/
def getTripUpdates (refreshPeriod : Int) (cache : TripUpdatesCache) (now : Int)
    (fetchResult : Except String (List FeedTripUpdate)) :
    Except String (List (String × FeedTripUpdate)) × TripUpdatesCache × Bool :=
  if 1 ≤ cache.data.length ∧ now < cache.lastUpdated + refreshPeriod then
    (.ok cache.data, cache, false)
  else
    match fetchResult with
    | .error e => (.error e, cache, true)
    | .ok entities =>
      let updates := selectTripUpdates now entities
      let merged := mergeWithCache cache.data updates
      (.ok merged, ⟨merged, now⟩, true)

/-! ## Predicates for the planner claims -/

/-- The precondition of the time-consistency claim: within one trip the
stop-time seconds are non-decreasing along the stop sequence — each stop
departs no earlier than it arrives, and each next stop arrives no earlier
than the previous departure. -/
def tripMonotone (ts : List TripStopTime) : Prop :=
  (∀ st ∈ ts, st.arrivalSec ≤ st.departureSec) ∧
    List.Chain' (fun a b => a.departureSec ≤ b.arrivalSec) ts

/-- Chronologically ordered legs: every leg's arrival is at or after its
departure, and every next leg departs at or after the previous arrival. -/
def chronoLegs (l : List JourneyLeg) : Prop :=
  (∀ leg ∈ l, leg.departureSec ≤ leg.arrivalSec) ∧
    List.Chain' (fun a b => a.arrivalSec ≤ b.departureSec) l

/-- `chronoLegs` of the reversed list, as built by the backwards
predecessor-chain walk. -/
def revChronoLegs (l : List JourneyLeg) : Prop :=
  (∀ leg ∈ l, leg.departureSec ≤ leg.arrivalSec) ∧
    List.Chain' (fun a b => b.arrivalSec ≤ a.departureSec) l

/-- The scan invariant tying `arrival` to `predecessor`: untouched stops keep
the base arrival; a recorded predecessor entry agrees with the arrival map,
is internally ordered, walk-origin entries depart at the requested departure
second, and transit entries board at a stop whose (current, hence final)
arrival is at most the boarding departure and which itself carries an entry. -/
def predInv (departSec : Int) (base : String → Int)
    (arrival : String → Int) (pred : String → Option StopPredecessor) : Prop :=
  (∀ u, pred u = none → arrival u = base u) ∧
    ∀ u p, pred u = some p →
      arrival u = p.arriveSec ∧ p.departSec ≤ p.arriveSec ∧
        (p.mode = "walk-origin" → p.departSec = departSec) ∧
        (p.mode ≠ "walk-origin" →
          arrival p.fromStopID ≤ p.departSec ∧ pred p.fromStopID ≠ none)

/-! ## Concrete instances used by counterexamples and witnesses -/

/-- The day's trip table of the transfer-bound violation: four trips, listed
in one admissible Go map iteration order. -/
def c3Trips : List (String × List TripStopTime) :=
  [("T4", [⟨"c", 1, 300, 310, "R4", "T4"⟩, ⟨"d", 2, 400, 400, "R4", "T4"⟩]),
   ("T3", [⟨"b", 1, 200, 220, "R3", "T3"⟩, ⟨"c", 2, 290, 290, "R3", "T3"⟩]),
   ("T2", [⟨"a", 1, 100, 110, "R2", "T2"⟩, ⟨"b", 2, 200, 210, "R2", "T2"⟩,
    ⟨"c", 3, 300, 300, "R2", "T2"⟩]),
   ("T1", [⟨"w", 1, 5, 10, "R1", "T1"⟩, ⟨"a", 2, 100, 100, "R1", "T1"⟩])]

/-! ## Claims about the service resolver -/

/-- Membership characterisation of the `active_services` CTE. -/
theorem mem_activeServicesCTE (cal : List CalendarRow) (cd : List CalendarDateRow)
    (d : Nat) (wd : Fin 7) (s : String) :
    s ∈ activeServicesCTE cal cd d wd ↔
      (∃ r ∈ cal, r.serviceId = s ∧ r.startDate ≤ d ∧ d ≤ r.endDate ∧ r.weekday wd = true) ∨
        ∃ r ∈ cd, r.serviceId = s ∧ r.date = d ∧ r.exceptionType = 1 := by
  simp only [activeServicesCTE, List.mem_append, List.mem_map, List.mem_filter,
    Bool.and_eq_true, decide_eq_true_eq]
  constructor
  · rintro (⟨r, ⟨hr, h1, h2⟩, hs⟩ | ⟨r, ⟨hr, h1, h2⟩, hs⟩)
    · exact Or.inl ⟨r, hr, hs, h1.1, h1.2, h2⟩
    · exact Or.inr ⟨r, hr, hs, h1, h2⟩
  · rintro (⟨r, hr, hs, h1, h2, h3⟩ | ⟨r, hr, hs, h1, h2⟩)
    · exact Or.inl ⟨r, ⟨hr, ⟨h1, h2⟩, h3⟩, hs⟩
    · exact Or.inr ⟨r, ⟨hr, h1, h2⟩, hs⟩

/-- Membership characterisation of the `removed_services` CTE. -/
theorem mem_removedServicesCTE (cd : List CalendarDateRow) (d : Nat) (s : String) :
    s ∈ removedServicesCTE cd d ↔
      ∃ r ∈ cd, r.serviceId = s ∧ r.date = d ∧ r.exceptionType = 2 := by
  simp only [removedServicesCTE, List.mem_map, List.mem_filter,
    Bool.and_eq_true, decide_eq_true_eq]
  constructor
  · rintro ⟨r, ⟨hr, h1, h2⟩, hs⟩
    exact ⟨r, hr, hs, h1, h2⟩
  · rintro ⟨r, hr, hs, h1, h2⟩
    exact ⟨r, ⟨hr, h1, h2⟩, hs⟩

/-- C1.  The active-service computation returns exactly the weekly-active
services (calendar row covering the date, weekday flag 1) union the
`exception_type = 1` additions, minus the `exception_type = 2` removals; in
particular a service with both an addition and a removal on the same date is
excluded, because the removal conjunct negates the whole membership. -/
theorem C1_active_services_set (cal : List CalendarRow) (cd : List CalendarDateRow)
    (d : Nat) (wd : Fin 7) (s : String) :
    s ∈ adjustedServices cal cd d wd ↔
      ((∃ r ∈ cal, r.serviceId = s ∧ r.startDate ≤ d ∧ d ≤ r.endDate ∧ r.weekday wd = true) ∨
          ∃ r ∈ cd, r.serviceId = s ∧ r.date = d ∧ r.exceptionType = 1) ∧
        ¬ ∃ r ∈ cd, r.serviceId = s ∧ r.date = d ∧ r.exceptionType = 2 := by
  rw [← mem_activeServicesCTE cal cd d wd s, ← mem_removedServicesCTE cd d s]
  simp [adjustedServices, List.mem_filter, List.mem_dedup]

/-- `regularStopTypeSQL` holds exactly for NULL and 0. -/
theorem regularStopTypeSQL_iff (v : Option Int) :
    regularStopTypeSQL v = true ↔ v = none ∨ v = some 0 := by
  cases v with
  | none => simp [regularStopTypeSQL]
  | some n => simp [regularStopTypeSQL]

/-- Rows of the joined `GetActiveTrips` query satisfy its WHERE clause. -/
theorem mem_getActiveTripsJoin_where (trips : List TripRow)
    (stopTimes : List StopTimeRow) (stops : List StopRow) (routes : List RouteRow)
    (cal : List CalendarRow) (cd : List CalendarDateRow)
    (stopID departureTimeFilter : String) (d : Nat) (wd : Fin 7)
    (row : JoinedServiceRow)
    (h : row ∈ getActiveTripsJoin trips stopTimes stops routes cal cd stopID
      departureTimeFilter d wd) :
    getActiveTripsWhere stopID departureTimeFilter row.st = true := by
  simp only [getActiveTripsJoin, List.mem_flatMap, List.mem_filter, List.mem_map,
    Bool.and_eq_true] at h
  obtain ⟨t, -, st, ⟨-, -, hw⟩, s, -, r, -, rfl⟩ := h
  exact hw

/-- C2.  Every row returned by `GetActiveTrips` (the `services_at_stop`
operation) has `pickup_type` in {0, NULL} and `drop_off_type` in {0, NULL};
a stop_times row with `pickup_type = 1` or `drop_off_type = 1` never joins
into the result. -/
theorem C2_pickup_dropoff_filtered (trips : List TripRow)
    (stopTimes : List StopTimeRow) (stops : List StopRow) (routes : List RouteRow)
    (cal : List CalendarRow) (cd : List CalendarDateRow)
    (stopID departureTimeFilter : String) (d : Nat) (wd : Fin 7) (limit : Int)
    (row : JoinedServiceRow)
    (h : row ∈ getActiveTrips trips stopTimes stops routes cal cd stopID
      departureTimeFilter d wd limit) :
    (row.st.pickupType = none ∨ row.st.pickupType = some 0) ∧
      (row.st.dropOffType = none ∨ row.st.dropOffType = some 0) := by
  have hjoin : row ∈ getActiveTripsJoin trips stopTimes stops routes cal cd stopID
      departureTimeFilter d wd := by
    unfold getActiveTrips at h
    have hsorted : row ∈ (getActiveTripsJoin trips stopTimes stops routes cal cd stopID
        departureTimeFilter d wd).insertionSort
        (fun a b => sqlStringLe a.st.departureTime b.st.departureTime = true) := by
      by_cases hl : 0 < limit
      · simp only [if_pos hl] at h
        exact List.mem_of_mem_take h
      · simp only [if_neg hl] at h
        exact h
    exact (List.perm_insertionSort _ _).mem_iff.mp hsorted
  have hw := mem_getActiveTripsJoin_where trips stopTimes stops routes cal cd
    stopID departureTimeFilter d wd row hjoin
  simp only [getActiveTripsWhere, Bool.and_eq_true] at hw
  exact ⟨(regularStopTypeSQL_iff _).mp hw.1.1.1, (regularStopTypeSQL_iff _).mp hw.1.1.2⟩

/-! ## Walk-duration arithmetic -/

/-- `roundIntFrac` computes `goRound` of the fraction it receives. -/
theorem roundIntFrac_eq_goRound (p : Int) (q : Nat) (hq : 0 < q) :
    roundIntFrac p q = goRound ((p : ℚ) / (q : ℚ)) := by
  have hq0 : ((q : ℚ)) ≠ 0 := by positivity
  have hx : (0 : ℚ) ≤ (p : ℚ) / (q : ℚ) ↔ 0 ≤ p := by
    rw [div_nonneg_iff]
    constructor
    · rintro (⟨h1, -⟩ | ⟨-, h2⟩)
      · exact_mod_cast h1
      · have : ((q : ℚ)) = 0 := le_antisymm h2 (by positivity)
        exact absurd this hq0
    · intro hp
      exact Or.inl ⟨by exact_mod_cast hp, by positivity⟩
  unfold roundIntFrac goRound
  by_cases hp : 0 ≤ p
  · rw [if_pos hp, if_pos (hx.mpr hp)]
    have : (p : ℚ) / (q : ℚ) + 1 / 2 = ((2 * p + q : Int) : ℚ) / ((2 * q : Nat) : ℚ) := by
      push_cast
      field_simp
      ring
    rw [this, Rat.floor_intCast_div_natCast]
  · rw [if_neg hp, if_neg (fun h => hp (hx.mp h))]
    have : -((p : ℚ) / (q : ℚ)) + 1 / 2 = ((2 * -p + q : Int) : ℚ) / ((2 * q : Nat) : ℚ) := by
      push_cast
      field_simp
      ring
    rw [this, Rat.floor_intCast_div_natCast]

/-- For a positive speed (no defaulting), `walkDurationSeconds` is Go's
`math.Round(distanceKm / speedKmph * 3600)`. -/
theorem walkDurationSeconds_eq_goRound (d s : ℚ) (hs : 0 < s) :
    walkDurationSeconds d s = goRound (d / s * 3600) := by
  have hns : ¬ s ≤ 0 := not_le.mpr hs
  have hnum : 0 < s.num := Rat.num_pos.mpr hs
  have hsnq : (0 : ℚ) < (s.num : ℚ) := by exact_mod_cast hnum
  have hdden : (0 : ℚ) < (d.den : ℚ) := by exact_mod_cast d.den_pos
  have hsden : (0 : ℚ) < (s.den : ℚ) := by exact_mod_cast s.den_pos
  have hq : 0 < d.den * s.num.toNat := by
    have h1 : 0 < s.num.toNat := by omega
    exact Nat.mul_pos d.den_pos h1
  have hdnum : (d.num : ℚ) = d * d.den := by
    have h := Rat.num_div_den d
    rw [div_eq_iff (ne_of_gt hdden)] at h
    exact h
  have hsnum : (s.num : ℚ) = s * s.den := by
    have h := Rat.num_div_den s
    rw [div_eq_iff (ne_of_gt hsden)] at h
    exact h
  unfold walkDurationSeconds
  simp only [if_neg hns]
  rw [roundIntFrac_eq_goRound _ _ hq]
  congr 1
  push_cast [Int.toNat_of_nonneg hnum.le]
  have htn : ((s.num.toNat : ℕ) : ℚ) = (s.num : ℚ) := by
    exact_mod_cast Int.toNat_of_nonneg hnum.le
  rw [htn]
  rw [div_eq_iff (by positivity : ((d.den : ℚ) * (s.num : ℚ)) ≠ 0)]
  have hsne : s ≠ 0 := ne_of_gt hs
  field_simp
  rw [hdnum, hsnum]
  ring

/-! ## Platform heuristic claims -/

/-- C6.  `determinePlatform` is a pure function of the stop name (it is a
Lean function, so determinism holds by construction) realising the four-case
table: "Britomart Train Station 3" yields "3" (captured digit),
"Newmarket Train Station" yields "1", "Queen St Stop B" yields "B"
(trailing capital), "Symonds St" yields "no platform". -/
theorem C6_platform_cases :
    determinePlatform "Britomart Train Station 3" = "3" ∧
      determinePlatform "Newmarket Train Station" = "1" ∧
      determinePlatform "Queen St Stop B" = "B" ∧
      determinePlatform "Symonds St" = "no platform" :=
  ⟨rfl, rfl, rfl, rfl⟩

/-! ## Walk-time initialisation claims -/

/-- A stop id no candidate carries keeps its arrival through `initWalk`. -/
theorem initWalk_arrival_untouched (departSec : Int) (speed : ℚ) :
    ∀ (cands : List StopWithDistance) (s : RaptorState) (t : String),
      (∀ x ∈ cands, x.stopId ≠ t) →
      (initWalk cands departSec speed s).arrival t = s.arrival t := by
  intro cands
  induction cands with
  | nil => intro s t _; rfl
  | cons x rest ih =>
    intro s t h
    have hx : x.stopId ≠ t := h x (List.mem_cons_self x rest)
    have hrest : ∀ y ∈ rest, y.stopId ≠ t := fun y hy => h y (List.mem_cons_of_mem x hy)
    show (initWalk rest departSec speed (initWalkStep departSec speed s x)).arrival t
      = s.arrival t
    rw [ih _ t hrest]
    unfold initWalkStep
    by_cases hc : departSec + walkDurationSeconds x.distance speed < s.arrival x.stopId
    · simp only [if_pos hc]
      exact Function.update_noteq (Ne.symm hx) _ _
    · simp only [if_neg hc]

/-- `initWalk` on pairwise-distinct candidates over a fresh (`maxInt32`)
arrival entry sets exactly `departSec + walkDurationSeconds`. -/
theorem initWalk_arrival_fresh (departSec : Int) (speed : ℚ) :
    ∀ (cands : List StopWithDistance) (s : RaptorState) (c : StopWithDistance),
      c ∈ cands → (cands.map fun x => x.stopId).Nodup →
      s.arrival c.stopId = maxInt32 →
      departSec + walkDurationSeconds c.distance speed < maxInt32 →
      (initWalk cands departSec speed s).arrival c.stopId
        = departSec + walkDurationSeconds c.distance speed := by
  intro cands
  induction cands with
  | nil => intro s c hc _ _ _; cases hc
  | cons x rest ih =>
    intro s c hc hnd harr hb
    have hnd' : x.stopId ∉ (rest.map fun z => z.stopId) ∧
        (rest.map fun z => z.stopId).Nodup := by
      rw [List.map_cons, List.nodup_cons] at hnd
      exact hnd
    rcases List.mem_cons.mp hc with rfl | hmem
    · have hrest : ∀ y ∈ rest, y.stopId ≠ c.stopId := by
        intro y hy he
        exact hnd'.1 (he ▸ List.mem_map_of_mem (fun z => z.stopId) hy)
      show (initWalk rest departSec speed (initWalkStep departSec speed s c)).arrival c.stopId
        = departSec + walkDurationSeconds c.distance speed
      rw [initWalk_arrival_untouched departSec speed rest _ _ hrest]
      unfold initWalkStep
      rw [harr] at *
      simp only [if_pos hb, Function.update_same]
    · have hx : x.stopId ≠ c.stopId := by
        intro he
        exact hnd'.1 (he ▸ List.mem_map_of_mem (fun z => z.stopId) hmem)
      show (initWalk rest departSec speed (initWalkStep departSec speed s x)).arrival c.stopId
        = departSec + walkDurationSeconds c.distance speed
      refine ih _ c hmem hnd'.2 ?_ hb
      unfold initWalkStep
      by_cases hc2 : departSec + walkDurationSeconds x.distance speed < s.arrival x.stopId
      · simp only [if_pos hc2]
        rw [Function.update_noteq (Ne.symm hx)]
        exact harr
      · simp only [if_neg hc2]
        exact harr

/-- C5 counterexample.  At distance 6/625 km (9.6 m) and walk speed 4.8 km/h
the exact walking time is 7.2 s: the planner's initialisation stores
`depart_sec + 7` (Go `math.Round`), while the claimed
`depart_sec + ⌈7.2⌉ = depart_sec + 8`; the two differ. -/
theorem C5_counterexample_round_vs_ceil :
    (initWalk [⟨"s1", mkRat 6 625⟩] 0 (mkRat 24 5)
        ⟨baseArrival ["s1"], fun _ => none, fun _ => false⟩).arrival "s1" = 7 ∧
      (⌈mkRat 6 625 / mkRat 24 5 * 3600⌉ : Int) = 8 ∧ (7 : Int) ≠ 8 := by
  refine ⟨rfl, ?_, by decide⟩
  rw [Rat.mkRat_eq_div, Rat.mkRat_eq_div]
  push_cast
  rw [show (6 : ℚ) / 625 / (24 / 5) * 3600 = 36 / 5 by norm_num, Int.ceil_eq_iff]
  constructor <;> norm_num

/-- C5 as amended.  For every non-negative distance and positive speed, the
planner initialises `earliest_arrival[stop]` to
`depart_sec + round(distance / walk_speed × 3600)` — Go `math.Round`
(half away from zero), not the ceiling — for each candidate stop of the
pairwise-distinct nearby-start set whose arrival entry is fresh and whose
walking time does not overflow the `maxInt32` sentinel. -/
theorem C5_amended_init_uses_round (cands : List StopWithDistance)
    (stopIds : List String) (departSec : Int) (speed : ℚ) (c : StopWithDistance)
    (hs : 0 < speed) (hd : 0 ≤ c.distance) (hmem : c ∈ cands)
    (hnd : (cands.map fun x => x.stopId).Nodup)
    (hin : stopIds.contains c.stopId = true)
    (hb : departSec + walkDurationSeconds c.distance speed < maxInt32) :
    (initWalk cands departSec speed
        ⟨baseArrival stopIds, fun _ => none, fun _ => false⟩).arrival c.stopId
      = departSec + goRound (c.distance / speed * 3600) := by
  rw [← walkDurationSeconds_eq_goRound c.distance speed hs]
  exact initWalk_arrival_fresh departSec speed cands _ c hmem hnd
    (by unfold baseArrival; simp only [hin]; rfl) hb

/-- Witness for the amended C5 at 9.6 m and 4.8 km/h. -/
theorem C5_amended_init_uses_round_witness :
    (initWalk [⟨"s1", mkRat 6 625⟩] 0 (mkRat 24 5)
        ⟨baseArrival ["s1"], fun _ => none, fun _ => false⟩).arrival "s1"
      = 0 + goRound (mkRat 6 625 / mkRat 24 5 * 3600) :=
  C5_amended_init_uses_round [⟨"s1", mkRat 6 625⟩] ["s1"] 0 (mkRat 24 5)
    ⟨"s1", mkRat 6 625⟩ (by decide) (by decide) (List.mem_singleton.mpr rfl)
    (by decide) (by decide) (by decide)

/-- Witness for C2: a one-row instance for stop "X" on 20240715 whose single
joined row the filter admits. -/
theorem C2_pickup_dropoff_filtered_witness :
    (⟨⟨"T", "S", "R", 0, "", ""⟩,
        ⟨"T", "08:00:00", "08:00:00", "X", 1, "", none, none⟩,
        ⟨"X", "X name", "", 0, "", ""⟩, ⟨"R", "", ""⟩⟩ : JoinedServiceRow).st.pickupType
        = none ∨ (⟨⟨"T", "S", "R", 0, "", ""⟩,
        ⟨"T", "08:00:00", "08:00:00", "X", 1, "", none, none⟩,
        ⟨"X", "X name", "", 0, "", ""⟩, ⟨"R", "", ""⟩⟩ : JoinedServiceRow).st.pickupType
        = some 0 :=
  (C2_pickup_dropoff_filtered [⟨"T", "S", "R", 0, "", ""⟩]
    [⟨"T", "08:00:00", "08:00:00", "X", 1, "", none, none⟩]
    [⟨"X", "X name", "", 0, "", ""⟩] [⟨"R", "", ""⟩]
    [⟨"S", fun _ => true, 20240101, 20241231⟩] [] "X" "" 20240715 0 0
    ⟨⟨"T", "S", "R", 0, "", ""⟩,
      ⟨"T", "08:00:00", "08:00:00", "X", 1, "", none, none⟩,
      ⟨"X", "X name", "", 0, "", ""⟩, ⟨"R", "", ""⟩⟩
    (by rw [show getActiveTrips [⟨"T", "S", "R", 0, "", ""⟩]
        [⟨"T", "08:00:00", "08:00:00", "X", 1, "", none, none⟩]
        [⟨"X", "X name", "", 0, "", ""⟩] [⟨"R", "", ""⟩]
        [⟨"S", fun _ => true, 20240101, 20241231⟩] [] "X" "" 20240715 0 0
        = [⟨⟨"T", "S", "R", 0, "", ""⟩,
            ⟨"T", "08:00:00", "08:00:00", "X", 1, "", none, none⟩,
            ⟨"X", "X name", "", 0, "", ""⟩, ⟨"R", "", ""⟩⟩] from rfl]
        exact List.mem_singleton.mpr rfl)).1

/-! ## `GetServiceByTripAndStop` binding claim -/

/-- C9 is a defect in the source: with an empty departure filter the
assembled SQL has two placeholders but three arguments are always bound, so
the call errors even when a matching row exists — against the claim that it
binds exactly (trip_id, stop_id) and returns the row.  Evaluated at the
failing input (trip "T1", stop "X", empty filter, matching row present). -/
theorem C9_binding_mismatch :
    getServiceQueryPlaceholders "" = 2 ∧
      (getServiceQueryArgs "T1" "X" "").length = 3 ∧
      getServiceByTripAndStop "T1" "X" ""
          (some ⟨⟨"T1", "S", "R", 0, "", ""⟩,
            ⟨"T1", "08:00:00", "08:00:00", "X", 1, "", none, none⟩,
            ⟨"X", "X name", "", 0, "", ""⟩, ⟨"R", "", ""⟩⟩)
        = .error "sql: expected placeholder count differs from argument count" :=
  ⟨rfl, rfl, rfl⟩

/-! ## Journey planner claims -/

/-- C3 is violated by the source: with `max_transfers = 2`, five stops
w a b c d (start at w, end at d), and the four trips of `c3Trips` scanned in
the listed map order, the planner returns a single plan whose predecessor
chain uses four distinct trips — 3 transfers, exceeding K = 2.  Round 3
boards trip T4 at stop c (improved in round 2 via trip T2 from a) and then
overwrites c's predecessor through trip T3 from b; the final chain
d←c←b←a←w therefore mixes rounds and is longer than K + 1. -/
theorem C3_transfer_bound_violated :
    (planJourneysRaptor ⟨mkRat 1 1, mkRat 5 1, 2, 0, 0, 1, some 0⟩
          ["w", "a", "b", "c", "d"] c3Trips
          (fun s => if s = "w" then mkRat 0 1 else mkRat 100 1)
          (fun s => if s = "d" then mkRat 0 1 else mkRat 100 1)).map
        (fun plans => plans.map fun p => p.transfers) = .ok [3] ∧ ¬ (3 : Int) ≤ 2 :=
  ⟨rfl, by decide⟩

/-! ## Realtime trip-update claims -/

/-- Key-replacement lookup for the association-list map: other keys see the
old map. -/
theorem lookup_map_replace {α : Type} (k t : String) (v : α) (hne : t ≠ k) :
    ∀ m : List (String × α),
      (m.map fun p => if p.1 = k then (k, v) else p).lookup t = m.lookup t := by
  intro m
  induction m with
  | nil => rfl
  | cons p rest ih =>
    obtain ⟨pk, pv⟩ := p
    by_cases hp : pk = k
    · have hb1 : (t == k) = false := beq_false_of_ne hne
      have hb2 : (t == pk) = false := beq_false_of_ne (by rw [hp]; exact hne)
      simp only [List.map_cons, if_pos hp, List.lookup_cons, hb1, hb2]
      exact ih
    · simp only [List.map_cons, if_neg hp, List.lookup_cons]
      cases hb : (t == pk) with
      | true => rfl
      | false => exact ih

/-- Key-replacement lookup at the replaced key. -/
theorem lookup_map_replace_self {α : Type} (k : String) (v : α) :
    ∀ m : List (String × α), (m.lookup k).isSome →
      (m.map fun p => if p.1 = k then (k, v) else p).lookup k = some v := by
  intro m
  induction m with
  | nil => intro h; simp at h
  | cons p rest ih =>
    intro h
    obtain ⟨pk, pv⟩ := p
    by_cases hp : pk = k
    · simp only [List.map_cons, if_pos hp, List.lookup_cons_self]
    · have hb : (k == pk) = false := beq_false_of_ne (fun he => hp he.symm)
      simp only [List.map_cons, if_neg hp, List.lookup_cons, hb]
      apply ih
      simp only [List.lookup_cons, hb] at h
      exact h

/-- `alSet` stores its value at its key. -/
theorem alSet_lookup_self {α : Type} (m : List (String × α)) (k : String) (v : α) :
    (alSet m k v).lookup k = some v := by
  unfold alSet
  by_cases h : (m.lookup k).isSome
  · simp only [if_pos h]
    exact lookup_map_replace_self k v m h
  · simp only [if_neg h]
    rw [List.lookup_append, Option.not_isSome_iff_eq_none.mp h,
      List.lookup_cons_self]
    rfl

/-- `alSet` leaves every other key unchanged. -/
theorem alSet_lookup_ne {α : Type} (m : List (String × α)) (k t : String) (v : α)
    (hne : t ≠ k) : (alSet m k v).lookup t = m.lookup t := by
  unfold alSet
  by_cases h : (m.lookup k).isSome
  · simp only [if_pos h]
    exact lookup_map_replace k t v hne m
  · simp only [if_neg h]
    rw [List.lookup_append]
    have : ([(k, v)] : List (String × α)).lookup t = none := by
      simp only [List.lookup_cons, beq_false_of_ne hne]
      rfl
    rw [this]
    cases m.lookup t <;> rfl

/-- C7.  In-feed selection for a repeated trip id, both sides well-formed:
a started update displaces an unstarted stored one; a started stored one
survives an unstarted arrival; among two started the strictly larger
timestamp wins and otherwise (ties included) the stored one stays; among
two unstarted the first seen stays. -/
theorem C7_trip_update_selection (now : Int) (m : List (String × FeedTripUpdate))
    (u ex : FeedTripUpdate) (s es : Int)
    (hm : m.lookup u.tripId = some ex)
    (hu : u.start = some s) (hex : ex.start = some es) :
    (now < es → s ≤ now →
        (selectTripUpdateStep now m u).lookup u.tripId = some u) ∧
      (es ≤ now → now < s →
        (selectTripUpdateStep now m u).lookup u.tripId = some ex) ∧
      (s ≤ now → es ≤ now → ex.timestamp < u.timestamp →
        (selectTripUpdateStep now m u).lookup u.tripId = some u) ∧
      (s ≤ now → es ≤ now → u.timestamp ≤ ex.timestamp →
        (selectTripUpdateStep now m u).lookup u.tripId = some ex) ∧
      (now < s → now < es →
        (selectTripUpdateStep now m u).lookup u.tripId = some ex) := by
  unfold selectTripUpdateStep
  simp only [hu, hm, hex]
  refine ⟨?_, ?_, ?_, ?_, ?_⟩
  · intro h1 h2
    have d1 : decide (es ≤ now) = false := decide_eq_false (not_le.mpr h1)
    have d2 : decide (s ≤ now) = true := decide_eq_true h2
    simp only [d1, d2, Bool.not_false, Bool.true_and, if_pos]
    exact alSet_lookup_self m u.tripId u
  · intro h1 h2
    have d1 : decide (es ≤ now) = true := decide_eq_true h1
    have d2 : decide (s ≤ now) = false := decide_eq_false (not_le.mpr h2)
    simp only [d1, d2, Bool.not_true, Bool.false_and, Bool.and_false,
      Bool.false_eq_true, if_false]
    exact hm
  · intro h1 h2 h3
    have d1 : decide (es ≤ now) = true := decide_eq_true h2
    have d2 : decide (s ≤ now) = true := decide_eq_true h1
    simp only [d1, d2, Bool.not_true, Bool.false_and, Bool.and_self,
      Bool.false_eq_true, if_false, if_true, if_pos h3]
    exact alSet_lookup_self m u.tripId u
  · intro h1 h2 h3
    have d1 : decide (es ≤ now) = true := decide_eq_true h2
    have d2 : decide (s ≤ now) = true := decide_eq_true h1
    simp only [d1, d2, Bool.not_true, Bool.false_and, Bool.and_self,
      Bool.false_eq_true, if_false, if_true, if_neg (not_lt.mpr h3)]
    exact hm
  · intro h1 h2
    have d1 : decide (es ≤ now) = false := decide_eq_false (not_le.mpr h2)
    have d2 : decide (s ≤ now) = false := decide_eq_false (not_le.mpr h1)
    simp only [d1, d2, Bool.not_false, Bool.and_false, Bool.false_and,
      Bool.false_eq_true, if_false]
    exact hm

/-- Witness for C7: both updates started (at `now = 0`), timestamps 100 and
200 — the later-timestamped one is kept. -/
theorem C7_trip_update_selection_witness :
    (selectTripUpdateStep 0 [("T", ⟨"T", some (-600), 100, "", none, "", []⟩)]
        ⟨"T", some (-300), 200, "", none, "", []⟩).lookup "T"
      = some ⟨"T", some (-300), 200, "", none, "", []⟩ :=
  (C7_trip_update_selection 0 [("T", ⟨"T", some (-600), 100, "", none, "", []⟩)]
    ⟨"T", some (-300), 200, "", none, "", []⟩ ⟨"T", some (-600), 100, "", none, "", []⟩
    (-300) (-600) rfl rfl rfl).2.2.1 (by decide) (by decide) (by decide)

/-- C8 counterexample.  A successful fetch whose only entity has a malformed
start stores an empty map (first conjunct: the call returns `.ok []` and the
cache becomes `⟨[], 100⟩`); a second call 20 s later — well inside the 60 s
refresh period — nevertheless issues a network fetch (second conjunct) and
can return a different snapshot (third conjunct), because the cache-hit test
`len(data) >= 1 && ...` fails on the empty map. -/
theorem C8_counterexample_empty_snapshot :
    getTripUpdates 60 ⟨[], 0⟩ 100 (.ok [⟨"T", none, 1, "", none, "", []⟩])
        = (.ok [], ⟨[], 100⟩, true) ∧
      (getTripUpdates 60 ⟨[], 100⟩ 120
          (.ok [⟨"T", some 0, 5, "", none, "", []⟩])).2.2 = true ∧
      (getTripUpdates 60 ⟨[], 100⟩ 120
          (.ok [⟨"T", some 0, 5, "", none, "", []⟩])).1
        = .ok [("T", ⟨"T", some 0, 5, "", none, "", []⟩)] :=
  ⟨rfl, rfl, rfl⟩

/-- C8 as amended.  For every cache state produced by a successful fetch that
stored at least one trip update, any two `Get` calls within the refresh
period of that fetch return that same snapshot, issue no network fetch, and
leave the cache state unchanged. -/
theorem C8_amended_cache_freshness (rp : Int) (cache : TripUpdatesCache)
    (t1 t2 : Int) (f1 f2 : Except String (List FeedTripUpdate))
    (hne : cache.data ≠ []) (h1 : t1 < cache.lastUpdated + rp)
    (h2 : t2 < cache.lastUpdated + rp) :
    getTripUpdates rp cache t1 f1 = (.ok cache.data, cache, false) ∧
      getTripUpdates rp cache t2 f2 = (.ok cache.data, cache, false) := by
  have hlen : 1 ≤ cache.data.length := List.length_pos.mpr hne
  constructor <;>
    · unfold getTripUpdates
      rw [if_pos ⟨hlen, by omega⟩]

/-- Witness for the amended C8 at a one-entry cache. -/
theorem C8_amended_cache_freshness_witness :
    getTripUpdates 60 ⟨[("T", ⟨"T", some 0, 5, "", none, "", []⟩)], 100⟩ 120
        (.ok []) = (.ok [("T", ⟨"T", some 0, 5, "", none, "", []⟩)],
          ⟨[("T", ⟨"T", some 0, 5, "", none, "", []⟩)], 100⟩, false) :=
  (C8_amended_cache_freshness 60
    ⟨[("T", ⟨"T", some 0, 5, "", none, "", []⟩)], 100⟩ 120 130
    (.ok []) (.error "x") (by decide) (by decide) (by decide)).1

/-- C10.  `GetTripUpdates` serves the cache without fetching only when the
stored map has at least one entry: every call on an empty-map state issues a
network fetch, whatever `now` and the last-fetched time are — in particular
also within the refresh period. -/
theorem C10_empty_map_refetches (rp : Int) (cache : TripUpdatesCache)
    (now : Int) (f : Except String (List FeedTripUpdate)) :
    (cache.data = [] → (getTripUpdates rp cache now f).2.2 = true) ∧
      ((getTripUpdates rp cache now f).2.2 = false → 1 ≤ cache.data.length) := by
  constructor
  · intro hempty
    unfold getTripUpdates
    rw [if_neg]
    · cases f <;> rfl
    · rintro ⟨hlen, -⟩
      rw [hempty] at hlen
      simp at hlen
  · intro hfetch
    unfold getTripUpdates at hfetch
    by_cases hcond : 1 ≤ cache.data.length ∧ now < cache.lastUpdated + rp
    · exact hcond.1
    · rw [if_neg hcond] at hfetch
      cases f <;> simp at hfetch

/-- Witness for C10: a fresh (10 s old, 60 s period) but empty cache still
fetches. -/
theorem C10_empty_map_refetches_witness :
    (getTripUpdates 60 ⟨[], 90⟩ 100 (.ok [])).2.2 = true :=
  (C10_empty_map_refetches 60 ⟨[], 90⟩ 100 (.ok [])).1 rfl

/-! ## Journey planner time consistency (claim C4) -/

theorem predInv_relaxStop (departSec : Int) (base : String → Int)
    (st : TripStopTime) (b : String × Int) (s : ScanState)
    (hinv : predInv departSec base s.arrival s.pred)
    (hlt : st.arrivalSec < s.arrival st.stopID)
    (hbarr : s.arrival b.1 ≤ b.2)
    (hbpred : s.pred b.1 ≠ none)
    (hdep : b.2 ≤ st.arrivalSec) :
    predInv departSec base (relaxStop st b s).arrival (relaxStop st b s).pred := by
  obtain ⟨hbase, hrec⟩ := hinv
  unfold relaxStop
  dsimp only
  constructor
  · intro u hu
    by_cases he : u = st.stopID
    · rw [he, Function.update_same] at hu
      cases hu
    · rw [Function.update_noteq he] at hu
      rw [Function.update_noteq he]
      exact hbase u hu
  · intro u p hp
    by_cases he : u = st.stopID
    · subst he
      rw [Function.update_same] at hp
      injection hp with hp'
      subst hp'
      refine ⟨Function.update_same _ _ _, hdep, ?_, ?_⟩
      · intro hmode
        simp at hmode
      · intro _
        dsimp only
        constructor
        · by_cases hb : b.1 = st.stopID
          · rw [hb, Function.update_same]
            rw [hb] at hbarr
            omega
          · rw [Function.update_noteq hb]
            exact hbarr
        · by_cases hb : b.1 = st.stopID
          · rw [hb, Function.update_same]
            simp
          · rw [Function.update_noteq hb]
            exact hbpred
    · rw [Function.update_noteq he] at hp
      obtain ⟨h1, h2, h3, h4⟩ := hrec u p hp
      refine ⟨?_, h2, h3, ?_⟩
      · rw [Function.update_noteq he]
        exact h1
      · intro hmode
        obtain ⟨h4a, h4b⟩ := h4 hmode
        constructor
        · by_cases hb : p.fromStopID = st.stopID
          · rw [hb, Function.update_same]
            rw [hb] at h4a
            exact le_trans hlt.le h4a
          · rw [Function.update_noteq hb]
            exact h4a
        · by_cases hb : p.fromStopID = st.stopID
          · rw [hb, Function.update_same]
            simp
          · rw [Function.update_noteq hb]
            exact h4b

theorem tripSuffix_dep_le :
    ∀ (rest : List TripStopTime) (st0 : TripStopTime),
      (∀ st ∈ rest, st.arrivalSec ≤ st.departureSec) →
      List.Chain' (fun a b => a.departureSec ≤ b.arrivalSec) (st0 :: rest) →
      ∀ st ∈ rest, st0.departureSec ≤ st.arrivalSec := by
  intro rest
  induction rest with
  | nil => intro st0 _ _ st hst; cases hst
  | cons st1 rest ih =>
    intro st0 hmono hchain st hst
    have h01 : st0.departureSec ≤ st1.arrivalSec := (List.chain'_cons.mp hchain).1
    rcases List.mem_cons.mp hst with rfl | hst'
    · exact h01
    · have h1d : st1.arrivalSec ≤ st1.departureSec := hmono st1 (List.mem_cons_self _ _)
      have := ih st1 (fun x hx => hmono x (List.mem_cons_of_mem st1 hx))
        (List.chain'_cons.mp hchain).2 st hst'
      omega

theorem relaxStop_pred_some (st : TripStopTime) (b : String × Int) (s : ScanState)
    (u : String) (h : s.pred u ≠ none) : (relaxStop st b s).pred u ≠ none := by
  unfold relaxStop
  dsimp only
  by_cases he : u = st.stopID
  · rw [he, Function.update_same]
    simp
  · rw [Function.update_noteq he]
    exact h

theorem scanTripGo_inv (updated : String → Bool) (departSec : Int) (base : String → Int) :
    ∀ (ts : List TripStopTime) (board : Option (String × Int)) (s : ScanState),
      predInv departSec base s.arrival s.pred →
      (∀ u, updated u = true → s.pred u ≠ none) →
      (∀ u, s.nextUpdated u = true → s.pred u ≠ none) →
      (∀ st ∈ ts, st.arrivalSec ≤ st.departureSec) →
      List.Chain' (fun a b => a.departureSec ≤ b.arrivalSec) ts →
      (∀ bi : String × Int, board = some bi → s.arrival bi.1 ≤ bi.2 ∧
        s.pred bi.1 ≠ none ∧ ∀ st ∈ ts, bi.2 ≤ st.arrivalSec) →
      predInv departSec base (scanTripGo updated ts board s).arrival
          (scanTripGo updated ts board s).pred ∧
        (∀ u, (scanTripGo updated ts board s).nextUpdated u = true →
          (scanTripGo updated ts board s).pred u ≠ none) ∧
        (∀ u, s.pred u ≠ none → (scanTripGo updated ts board s).pred u ≠ none) := by
  intro ts
  induction ts with
  | nil =>
    intro board s h1 h2 h3 _ _ _
    exact ⟨h1, h3, fun u h => h⟩
  | cons st rest ih =>
    intro board s h1 h2 h3 hmono hchain hboard
    have hmono_rest : ∀ x ∈ rest, x.arrivalSec ≤ x.departureSec :=
      fun x hx => hmono x (List.mem_cons_of_mem st hx)
    have hchain_rest : List.Chain' (fun a b => a.departureSec ≤ b.arrivalSec) rest :=
      hchain.tail
    cases board with
    | none =>
      simp only [scanTripGo]
      by_cases hcond :
          (updated st.stopID && decide (s.arrival st.stopID ≤ st.departureSec)) = true
      · rw [if_pos hcond]
        obtain ⟨hu, harr⟩ := (Bool.and_eq_true _ _).mp hcond
        refine ih (some (st.stopID, st.departureSec)) s h1 h2 h3 hmono_rest hchain_rest ?_
        intro bi hbi
        injection hbi with hbi'
        subst hbi'
        exact ⟨of_decide_eq_true harr, h2 _ hu,
          tripSuffix_dep_le rest st hmono_rest hchain⟩
      · rw [if_neg hcond]
        exact ih none s h1 h2 h3 hmono_rest hchain_rest (fun bi hbi => by cases hbi)
    | some b =>
      simp only [scanTripGo]
      obtain ⟨hbarr, hbpred, hbsuffix⟩ := hboard b rfl
      have hbsuffix_rest : ∀ x ∈ rest, b.2 ≤ x.arrivalSec :=
        fun x hx => hbsuffix x (List.mem_cons_of_mem st hx)
      by_cases hlt : st.arrivalSec < s.arrival st.stopID
      · rw [if_pos hlt]
        have hdep : b.2 ≤ st.arrivalSec := hbsuffix st (List.mem_cons_self _ _)
        have hinv' := predInv_relaxStop departSec base st b s h1 hlt hbarr hbpred hdep
        have hupd' : ∀ u, updated u = true → (relaxStop st b s).pred u ≠ none :=
          fun u hu => relaxStop_pred_some st b s u (h2 u hu)
        have hnext' : ∀ u, (relaxStop st b s).nextUpdated u = true →
            (relaxStop st b s).pred u ≠ none := by
          intro u hu
          unfold relaxStop at hu ⊢
          dsimp only at hu ⊢
          by_cases he : u = st.stopID
          · rw [he, Function.update_same]
            simp
          · rw [Function.update_noteq he] at hu
            rw [Function.update_noteq he]
            exact h3 u hu
        have hboard' : ∀ bi : String × Int, some b = some bi →
            (relaxStop st b s).arrival bi.1 ≤ bi.2 ∧
              (relaxStop st b s).pred bi.1 ≠ none ∧
              ∀ x ∈ rest, bi.2 ≤ x.arrivalSec := by
          intro bi hbi
          injection hbi with hbi'
          subst hbi'
          refine ⟨?_, relaxStop_pred_some st b s b.1 hbpred, hbsuffix_rest⟩
          unfold relaxStop
          dsimp only
          by_cases he : b.1 = st.stopID
          · rw [he, Function.update_same]
            rw [he] at hbarr
            omega
          · rw [Function.update_noteq he]
            exact hbarr
        obtain ⟨r1, r2, r3⟩ := ih (some b) (relaxStop st b s) hinv' hupd' hnext'
          hmono_rest hchain_rest hboard'
        exact ⟨r1, r2, fun u h => r3 u (relaxStop_pred_some st b s u h)⟩
      · rw [if_neg hlt]
        refine ih (some b) s h1 h2 h3 hmono_rest hchain_rest ?_
        intro bi hbi
        injection hbi with hbi'
        subst hbi'
        exact ⟨hbarr, hbpred, hbsuffix_rest⟩

theorem runRound_inv (updated : String → Bool) (departSec : Int) (base : String → Int) :
    ∀ (trips : List (List TripStopTime)) (s : ScanState),
      predInv departSec base s.arrival s.pred →
      (∀ u, updated u = true → s.pred u ≠ none) →
      (∀ u, s.nextUpdated u = true → s.pred u ≠ none) →
      (∀ t ∈ trips, tripMonotone t) →
      predInv departSec base (runRound updated trips s).arrival
          (runRound updated trips s).pred ∧
        (∀ u, (runRound updated trips s).nextUpdated u = true →
          (runRound updated trips s).pred u ≠ none) ∧
        (∀ u, s.pred u ≠ none → (runRound updated trips s).pred u ≠ none) := by
  intro trips
  induction trips with
  | nil =>
    intro s h1 h2 h3 _
    exact ⟨h1, h3, fun u h => h⟩
  | cons t rest ih =>
    intro s h1 h2 h3 hmono
    have ht := hmono t (List.mem_cons_self _ _)
    obtain ⟨s1, s2, s3⟩ := scanTripGo_inv updated departSec base t none s h1 h2 h3
      ht.1 ht.2 (fun bi hbi => by cases hbi)
    have hrest : ∀ x ∈ rest, tripMonotone x :=
      fun x hx => hmono x (List.mem_cons_of_mem t hx)
    have h2' : ∀ u, updated u = true → (scanTrip updated t s).pred u ≠ none :=
      fun u hu => s3 u (h2 u hu)
    obtain ⟨r1, r2, r3⟩ := ih (scanTrip updated t s) s1 h2' s2 hrest
    exact ⟨r1, r2, fun u h => r3 u (s3 u h)⟩

theorem raptorRounds_inv (trips : List (List TripStopTime)) (departSec : Int)
    (base : String → Int) (hmono : ∀ t ∈ trips, tripMonotone t) :
    ∀ (n : Nat) (rs : RaptorState),
      predInv departSec base rs.arrival rs.pred →
      (∀ u, rs.updated u = true → rs.pred u ≠ none) →
      predInv departSec base (raptorRounds trips n rs).arrival
        (raptorRounds trips n rs).pred := by
  intro n
  induction n with
  | zero => intro rs h1 _; exact h1
  | succ n ih =>
    intro rs h1 h2
    simp only [raptorRounds]
    obtain ⟨r1, r2, -⟩ := runRound_inv rs.updated departSec base trips
      ⟨rs.arrival, rs.pred, fun _ => false, false⟩ h1 h2 (fun u h => by simp at h) hmono
    by_cases hany :
        (runRound rs.updated trips ⟨rs.arrival, rs.pred, fun _ => false, false⟩).anyNextUpdated = true
    · rw [if_pos hany]
      exact ih _ r1 r2
    · rw [if_neg hany]
      exact r1

theorem walkDurationSeconds_nonneg (d s : ℚ) (hd : 0 ≤ d) :
    0 ≤ walkDurationSeconds d s := by
  unfold walkDurationSeconds roundIntFrac
  set sp := if s ≤ 0 then mkRat 24 5 else s with hsp
  have hdn : 0 ≤ d.num := Rat.num_nonneg.mpr hd
  have hp : 0 ≤ d.num * 3600 * (sp.den : Int) := by positivity
  rw [if_pos hp]
  apply Int.ediv_nonneg
  · positivity
  · positivity

theorem initWalkStep_inv (departSec : Int) (base : String → Int) (speed : ℚ)
    (s : RaptorState) (c : StopWithDistance)
    (h1 : predInv departSec base s.arrival s.pred)
    (h2 : ∀ u, s.updated u = true → s.pred u ≠ none)
    (hd : 0 ≤ c.distance) :
    predInv departSec base (initWalkStep departSec speed s c).arrival
        (initWalkStep departSec speed s c).pred ∧
      ∀ u, (initWalkStep departSec speed s c).updated u = true →
        (initWalkStep departSec speed s c).pred u ≠ none := by
  obtain ⟨hbase, hrec⟩ := h1
  have hw : 0 ≤ walkDurationSeconds c.distance speed :=
    walkDurationSeconds_nonneg c.distance speed hd
  unfold initWalkStep
  by_cases hc : departSec + walkDurationSeconds c.distance speed < s.arrival c.stopId
  · rw [if_pos hc]
    dsimp only
    refine ⟨⟨?_, ?_⟩, ?_⟩
    · intro u hu
      by_cases he : u = c.stopId
      · rw [he, Function.update_same] at hu
        cases hu
      · rw [Function.update_noteq he] at hu
        rw [Function.update_noteq he]
        exact hbase u hu
    · intro u p hp
      by_cases he : u = c.stopId
      · subst he
        rw [Function.update_same] at hp
        injection hp with hp'
        subst hp'
        refine ⟨Function.update_same _ _ _, by dsimp only; omega, fun _ => rfl, ?_⟩
        intro hmode
        simp at hmode
      · rw [Function.update_noteq he] at hp
        obtain ⟨g1, g2, g3, g4⟩ := hrec u p hp
        refine ⟨?_, g2, g3, ?_⟩
        · rw [Function.update_noteq he]
          exact g1
        · intro hmode
          obtain ⟨g4a, g4b⟩ := g4 hmode
          constructor
          · by_cases hb : p.fromStopID = c.stopId
            · rw [hb, Function.update_same]
              rw [hb] at g4a
              omega
            · rw [Function.update_noteq hb]
              exact g4a
          · by_cases hb : p.fromStopID = c.stopId
            · rw [hb, Function.update_same]
              simp
            · rw [Function.update_noteq hb]
              exact g4b
    · intro u hu
      by_cases he : u = c.stopId
      · rw [he, Function.update_same]
        simp
      · rw [Function.update_noteq he] at hu
        rw [Function.update_noteq he]
        exact h2 u hu
  · rw [if_neg hc]
    exact ⟨⟨hbase, hrec⟩, h2⟩

theorem initWalk_inv (departSec : Int) (base : String → Int) (speed : ℚ) :
    ∀ (cands : List StopWithDistance) (s : RaptorState),
      predInv departSec base s.arrival s.pred →
      (∀ u, s.updated u = true → s.pred u ≠ none) →
      (∀ c ∈ cands, 0 ≤ c.distance) →
      predInv departSec base (initWalk cands departSec speed s).arrival
          (initWalk cands departSec speed s).pred ∧
        ∀ u, (initWalk cands departSec speed s).updated u = true →
          (initWalk cands departSec speed s).pred u ≠ none := by
  intro cands
  induction cands with
  | nil =>
    intro s h1 h2 _
    exact ⟨h1, h2⟩
  | cons c rest ih =>
    intro s h1 h2 hd
    have hc := hd c (List.mem_cons_self _ _)
    obtain ⟨g1, g2⟩ := initWalkStep_inv departSec base speed s c h1 h2 hc
    exact ih (initWalkStep departSec speed s c) g1 g2
      (fun x hx => hd x (List.mem_cons_of_mem c hx))

theorem mem_filterNearbyStops (stops : List String) (dist : String → ℚ)
    (maxD : ℚ) (maxS : Nat) (sd : StopWithDistance)
    (h : sd ∈ filterNearbyStops stops dist maxD maxS) :
    sd.stopId ∈ stops ∧ sd.distance = dist sd.stopId := by
  unfold filterNearbyStops at h
  have hsorted : sd ∈ ((stops.filter fun s => decide (dist s ≤ maxD)).map
      fun s => StopWithDistance.mk s (dist s)).insertionSort
      (fun a b => a.distance ≤ b.distance) := by
    by_cases hl : maxS < (((stops.filter fun s => decide (dist s ≤ maxD)).map
        fun s => StopWithDistance.mk s (dist s)).insertionSort
        (fun a b => a.distance ≤ b.distance)).length
    · rw [if_pos hl] at h
      exact List.mem_of_mem_take h
    · rw [if_neg hl] at h
      exact h
  have hmem := (List.perm_insertionSort _ _).mem_iff.mp hsorted
  obtain ⟨s, hs, rfl⟩ := List.mem_map.mp hmem
  exact ⟨(List.mem_filter.mp hs).1, rfl⟩

theorem mem_selectBestDestinations (cands : List StopWithDistance)
    (arrival : String → Int) (departSec : Int) (speed : ℚ) (maxRes : Int)
    (c : JourneyCandidate)
    (h : c ∈ selectBestDestinations cands arrival departSec speed maxRes) :
    c.stop ∈ cands ∧
      c.arrivalSec = arrival c.stop.stopId + walkDurationSeconds c.stop.distance speed := by
  unfold selectBestDestinations at h
  set results := cands.filterMap fun x =>
    if arrival x.stopId = maxInt32 then none
    else
      if departSec ≤ arrival x.stopId + walkDurationSeconds x.distance speed then
        some (JourneyCandidate.mk x (arrival x.stopId + walkDurationSeconds x.distance speed))
      else none with hres
  have hsorted : c ∈ results.insertionSort (fun a b => a.arrivalSec ≤ b.arrivalSec) := by
    by_cases hl : 0 < maxRes ∧ (maxRes : Int) <
        (results.insertionSort (fun a b => a.arrivalSec ≤ b.arrivalSec)).length
    · rw [if_pos hl] at h
      exact List.mem_of_mem_take h
    · rw [if_neg hl] at h
      exact h
  have hmem := (List.perm_insertionSort _ _).mem_iff.mp hsorted
  obtain ⟨x, hx, hfx⟩ := List.mem_filterMap.mp hmem
  by_cases h1 : arrival x.stopId = maxInt32
  · rw [if_pos h1] at hfx
    cases hfx
  · rw [if_neg h1] at hfx
    by_cases h2 : departSec ≤ arrival x.stopId + walkDurationSeconds x.distance speed
    · rw [if_pos h2] at hfx
      injection hfx with hfx'
      subst hfx'
      exact ⟨hx, rfl⟩
    · rw [if_neg h2] at hfx
      cases hfx

theorem buildLegsLoop_revChrono (pred : String → Option StopPredecessor)
    (departSec : Int) (distFS : String → ℚ) (base arrival : String → Int)
    (hinv : predInv departSec base arrival pred) :
    ∀ (fuel : Nat) (acc : BuildAcc),
      revChronoLegs acc.legs →
      (∀ x, acc.legs.getLast? = some x → arrival acc.current ≤ x.departureSec) →
      revChronoLegs (buildLegsLoop pred departSec distFS fuel acc).legs := by
  intro fuel
  induction fuel with
  | zero => intro acc h1 _; exact h1
  | succ n ih =>
    intro acc h1 h2
    simp only [buildLegsLoop]
    by_cases hcur : acc.current = ""
    · rw [if_pos hcur]
      exact h1
    · rw [if_neg hcur]
      cases hpred : pred acc.current with
      | none => exact h1
      | some p =>
        dsimp only
        obtain ⟨g1, g2, g3, g4⟩ := hinv.2 acc.current p hpred
        by_cases hmode : p.mode = "walk-origin"
        · rw [if_pos hmode]
          dsimp only
          constructor
          · intro leg hleg
            rcases List.mem_append.mp hleg with hin | hlast
            · exact h1.1 leg hin
            · rw [List.mem_singleton] at hlast
              subst hlast
              dsimp only
              rw [← g3 hmode]
              exact g2
          · rw [List.chain'_append]
            refine ⟨h1.2, List.chain'_singleton _, ?_⟩
            intro x hx y hy
            simp only [List.head?_cons, Option.mem_def, Option.some.injEq] at hy
            subst hy
            dsimp only
            rw [← g1]
            exact h2 x hx
        · rw [if_neg hmode]
          have g4' := g4 hmode
          have main : ∀ acc2 : BuildAcc,
              acc2.legs = acc.legs ++
                [⟨"transit", some p.fromStopID, some acc.current, p.tripID,
                  p.routeID, p.departSec, p.arriveSec, 0⟩] →
              acc2.current = p.fromStopID →
              revChronoLegs (buildLegsLoop pred departSec distFS n acc2).legs := by
            intro acc2 hl hc
            apply ih
            · rw [hl]
              constructor
              · intro l hml
                rcases List.mem_append.mp hml with hin | hlast
                · exact h1.1 l hin
                · rw [List.mem_singleton] at hlast
                  subst hlast
                  exact g2
              · rw [List.chain'_append]
                refine ⟨h1.2, List.chain'_singleton _, ?_⟩
                intro x hx y hy
                simp only [List.head?_cons, Option.mem_def, Option.some.injEq] at hy
                subst hy
                dsimp only
                rw [← g1]
                exact h2 x hx
            · intro x hx
              rw [hl, List.getLast?_concat] at hx
              injection hx with hx'
              subst hx'
              rw [hc]
              exact g4'.1
          exact main _ (by split <;> rfl) rfl

theorem revChrono_reverse (l : List JourneyLeg) (h : revChronoLegs l) :
    chronoLegs l.reverse := by
  obtain ⟨h1, h2⟩ := h
  constructor
  · intro leg hleg
    exact h1 leg (List.mem_reverse.mp hleg)
  · rw [List.chain'_reverse]
    exact h2

theorem buildJourneyLegs_chrono (endStop : StopWithDistance) (endArrivalSec : Int)
    (pred : String → Option StopPredecessor) (departSec : Int) (speed : ℚ)
    (distFS : String → ℚ) (fuel : Nat) (base arrival : String → Int)
    (hinv : predInv departSec base arrival pred)
    (hw : 0 ≤ walkDurationSeconds endStop.distance speed)
    (hlink : endArrivalSec
      = arrival endStop.stopId + walkDurationSeconds endStop.distance speed) :
    chronoLegs
      (buildJourneyLegs endStop endArrivalSec pred departSec speed distFS fuel).1 := by
  unfold buildJourneyLegs
  by_cases hid : endStop.stopId = ""
  · rw [if_pos hid]
    exact ⟨fun leg h => absurd h (List.not_mem_nil leg), List.chain'_nil⟩
  · rw [if_neg hid]
    dsimp only
    apply revChrono_reverse
    apply buildLegsLoop_revChrono pred departSec distFS base arrival hinv fuel
    · constructor
      · intro leg hleg
        rw [List.mem_singleton] at hleg
        subst hleg
        dsimp only
        omega
      · exact List.chain'_singleton _
    · intro x hx
      simp only [List.getLast?_singleton, Option.some.injEq] at hx
      subst hx
      dsimp only
      omega

/-- C4.  Under the precondition that each trip's stop times are
non-decreasing along its stop sequence (and that the haversine distances are
non-negative, true of the source's `calculateDistance`), every plan returned
by `PlanJourneysRaptor` has chronologically ordered legs: each leg arrives no
earlier than it departs and each subsequent leg departs no earlier than the
previous leg's arrival. -/
theorem C4_plans_chronological (req : JourneyRequest) (stops : List String)
    (trips : List (String × List TripStopTime)) (distStart distEnd : String → ℚ)
    (plans : List JourneyPlan)
    (hmono : ∀ t ∈ trips, tripMonotone t.2)
    (hdS : ∀ s ∈ stops, 0 ≤ distStart s)
    (hdE : ∀ s ∈ stops, 0 ≤ distEnd s)
    (hok : planJourneysRaptor req stops trips distStart distEnd = .ok plans) :
    ∀ plan ∈ plans, chronoLegs plan.legs := by
  unfold planJourneysRaptor at hok
  set req' := applyJourneyDefaults req with hreq
  dsimp only at hok
  cases hda : req'.departAt with
  | none =>
    rw [hda] at hok
    cases hok
  | some departSec =>
    rw [hda] at hok
    dsimp only at hok
    set nearbyStart := filterNearbyStops stops distStart req'.maxWalkKm
      req'.maxNearbyStops.toNat with hns
    set nearbyEnd := filterNearbyStops stops distEnd req'.maxWalkKm
      req'.maxNearbyStops.toNat with hne
    by_cases h1 : (nearbyStart.isEmpty || nearbyEnd.isEmpty) = true
    · rw [if_pos h1] at hok
      cases hok
    · rw [if_neg h1] at hok
      by_cases h2 : trips.isEmpty = true
      · rw [if_pos h2] at hok
        cases hok
      · rw [if_neg h2] at hok
        set s1 := initWalk nearbyStart departSec req'.walkSpeedKmph
          ⟨baseArrival stops, fun _ => none, fun _ => false⟩ with hs1
        set sF := raptorRounds (trips.map fun t => t.2) (req'.maxTransfers + 1).toNat s1
          with hsF
        set best := selectBestDestinations nearbyEnd sF.arrival departSec
          req'.walkSpeedKmph req'.maxResults with hbest
        by_cases h3 : best.isEmpty = true
        · rw [if_pos h3] at hok
          cases hok
        · rw [if_neg h3] at hok
          set fuel := stops.length + (trips.map fun t => t.2.length).sum + 1 with hfuel
          set plansC := best.filterMap (fun c =>
            if (buildJourneyLegs c.stop c.arrivalSec sF.pred departSec
                req'.walkSpeedKmph distStart fuel).1.isEmpty then none
            else some (JourneyPlan.mk departSec c.arrivalSec
              (buildJourneyLegs c.stop c.arrivalSec sF.pred departSec
                req'.walkSpeedKmph distStart fuel).2.1
              (buildJourneyLegs c.stop c.arrivalSec sF.pred departSec
                req'.walkSpeedKmph distStart fuel).2.2
              (buildJourneyLegs c.stop c.arrivalSec sF.pred departSec
                req'.walkSpeedKmph distStart fuel).1)) with hplansC
          by_cases h4 : plansC.isEmpty = true
          · rw [if_pos h4] at hok
            cases hok
          · rw [if_neg h4] at hok
            injection hok with hok'
            subst hok'
            -- the invariant for sF
            have hinv0 : predInv departSec (baseArrival stops) (baseArrival stops)
                (fun _ => (none : Option StopPredecessor)) := by
              constructor
              · intro u _
                rfl
              · intro u p hp
                cases hp
            have hdns : ∀ c ∈ nearbyStart, 0 ≤ c.distance := by
              intro c hc
              obtain ⟨hmem, hdist⟩ := mem_filterNearbyStops stops distStart
                req'.maxWalkKm req'.maxNearbyStops.toNat c hc
              rw [hdist]
              exact hdS c.stopId hmem
            obtain ⟨hinv1, hupd1⟩ := initWalk_inv departSec (baseArrival stops)
              req'.walkSpeedKmph nearbyStart
              ⟨baseArrival stops, fun _ => none, fun _ => false⟩ hinv0
              (fun u h => by simp at h) hdns
            have hmono' : ∀ t ∈ trips.map (fun t => t.2), tripMonotone t := by
              intro t ht
              obtain ⟨x, hx, rfl⟩ := List.mem_map.mp ht
              exact hmono x hx
            have hinvF : predInv departSec (baseArrival stops) sF.arrival sF.pred :=
              raptorRounds_inv (trips.map fun t => t.2) departSec (baseArrival stops)
                hmono' (req'.maxTransfers + 1).toNat s1 hinv1 hupd1
            intro plan hplan
            obtain ⟨c, hc, hfc⟩ := List.mem_filterMap.mp hplan
            by_cases h5 : (buildJourneyLegs c.stop c.arrivalSec sF.pred departSec
                req'.walkSpeedKmph distStart fuel).1.isEmpty = true
            · rw [if_pos h5] at hfc
              cases hfc
            · rw [if_neg h5] at hfc
              injection hfc with hfc'
              subst hfc'
              dsimp only
              obtain ⟨hcmem, hclink⟩ := mem_selectBestDestinations nearbyEnd sF.arrival
                departSec req'.walkSpeedKmph req'.maxResults c hc
              obtain ⟨hsmem, hsdist⟩ := mem_filterNearbyStops stops distEnd
                req'.maxWalkKm req'.maxNearbyStops.toNat c.stop hcmem
              have hw : 0 ≤ walkDurationSeconds c.stop.distance req'.walkSpeedKmph := by
                apply walkDurationSeconds_nonneg
                rw [hsdist]
                exact hdE c.stop.stopId hsmem
              exact buildJourneyLegs_chrono c.stop c.arrivalSec sF.pred departSec
                req'.walkSpeedKmph distStart fuel (baseArrival stops) sF.arrival
                hinvF hw hclink

/-- Witness for C4: a one-stop, one-trip instance whose single plan is two
zero-length walk legs. -/
theorem C4_plans_chronological_witness :
    chronoLegs ((⟨0, 0, 0, [],
        [⟨"walk", none, some "s", "", "", 0, 0, mkRat 0 1⟩,
          ⟨"walk", some "s", none, "", "", 0, 0, mkRat 0 1⟩]⟩ : JourneyPlan).legs) :=
  C4_plans_chronological ⟨mkRat 1 1, mkRat 5 1, 2, 0, 0, 1, some 0⟩ ["s"]
    [("T", [⟨"s", 1, 10, 10, "R", "T"⟩])] (fun _ => mkRat 0 1) (fun _ => mkRat 0 1)
    [⟨0, 0, 0, [],
      [⟨"walk", none, some "s", "", "", 0, 0, mkRat 0 1⟩,
        ⟨"walk", some "s", none, "", "", 0, 0, mkRat 0 1⟩]⟩]
    (by
      intro t ht
      rw [List.mem_singleton] at ht
      subst ht
      exact ⟨by decide, List.chain'_singleton _⟩)
    (by decide) (by decide) rfl _ (List.mem_singleton.mpr rfl)
